import Mathlib

/-!
# Verification of the `Irrelevant` miscategorization detector

This file gives a shallow embedding of `src/irrelevant/irrelevant.py` (class
`Irrelevant`) and proves properties of it.

Modelling conventions:
* Python `float` arithmetic is embedded as `ℚ` (the relevant claims concern
  exact comparisons and division by zero, not rounding).
* The sklearn `CountVectorizer` analyzer is an external collaborator; it is a
  parameter `analyze : String → List String` of the embedded operations.
  `CountVectorizer(binary=True).fit_transform` on a document list raises
  `ValueError` when the resulting vocabulary is empty; this is embedded as the
  `Err.emptyVocabulary` error.
* Python exceptions raised by `fit` are embedded with `Except`; since `fit`
  mutates the object before it can fail, the error branch carries the model
  state at the moment the exception is raised.
* Python `set` results of `judge` are embedded as `Finset String`.
* Error kinds follow §7 of the design (logical kinds, not exception class
  names): the `ValueError` raised by `list.index` inside `get_keywords` when
  the group is absent is the `UnrecognizedLabel` kind.
-/

/-- A lowercase conversion for ASCII characters, modelling `str.lower` on the
(plain ASCII) data handled by the module. -/
def lowerChar (c : Char) : Char :=
  if 'A' ≤ c ∧ c ≤ 'Z' then Char.ofNat (c.toNat + 32) else c

/-- `str(c).lower()` (ASCII model). -/
def lowerStr (s : String) : String := ⟨s.data.map lowerChar⟩

/-- Does `p` occur at the start of `s`? -/
def beginsWith : List Char → List Char → Bool
  | [], _ => true
  | _ :: _, [] => false
  | a :: as, b :: bs => a = b && beginsWith as bs

/-- Does `p` occur contiguously anywhere inside `s`?  This models a `re.search`
of a plain (meta-character free) pattern `p` over the text `s`. -/
def occursIn (p : List Char) : List Char → Bool
  | [] => p.isEmpty
  | c :: rest => beginsWith p (c :: rest) || occursIn p rest

/-- Substring occurrence on `String`s. -/
def strOccursIn (p s : String) : Bool := occursIn p.data s.data

/-- Per-category keyword lists, as stored in `self.__keywords_[i]`
(`{'relevant': [...], 'clash': [...]}`). -/
structure KeywordSet where
  relevant : List String
  clash : List String
deriving DecidableEq, Repr

/-- The mutable state of an `Irrelevant` object: `self.__classes` and
`self.__keywords_` (kept parallel).  The label type `α` is opaque/hashable in
the source. -/
structure ModelState (α : Type) where
  classes : List α
  keywords : List KeywordSet
deriving DecidableEq, Repr

/-- Logical error kinds of the module (design §7), plus the two failure modes
of the underlying Python runtime that the source does not guard:
`zeroDivision` (the `/` on line 123/135), `emptyVocabulary` (raised by
`CountVectorizer.fit_transform` on a token-free document list) and
`indexError` (indexing `self.__keywords_` past its length). -/
inductive Err where
  | invalidInput
  | untrained
  | unrecognizedLabel
  | zeroDivision
  | emptyVocabulary
  | indexError
deriving DecidableEq, Repr

instance {ε α : Type} [DecidableEq ε] [DecidableEq α] : DecidableEq (Except ε α) :=
  fun a b =>
    match a, b with
    | .error e, .error e' =>
      if h : e = e' then .isTrue (by rw [h]) else .isFalse (by simp [h])
    | .error _, .ok _ => .isFalse (by simp)
    | .ok _, .error _ => .isFalse (by simp)
    | .ok v, .ok v' =>
      if h : v = v' then .isTrue (by rw [h]) else .isFalse (by simp [h])

/-- Index of the first occurrence of `a` in a list (`list.index`); returns the
length when absent (the source only calls it on members, see `get_keywords`). -/
def indexOfD {α : Type} [DecidableEq α] (a : α) : List α → ℕ
  | [] => 0
  | b :: t => if b = a then 0 else indexOfD a t + 1

/-- Whitespace split helper for the concrete stand-in analyzer. -/
def splitTokens (cur : List Char) : List Char → List (List Char)
  | [] => if cur.isEmpty then [] else [cur.reverse]
  | c :: rest =>
    if c = ' ' then
      (if cur.isEmpty then splitTokens [] rest else cur.reverse :: splitTokens [] rest)
    else splitTokens (c :: cur) rest

/-- A concrete instance of the external analyzer collaborator, used to
instantiate the embedded operations on concrete inputs: whitespace word
splitting keeping tokens of length ≥ 2 (mirroring the default
`CountVectorizer` token pattern on simple texts). -/
def analyzeSimple (s : String) : List String :=
  ((splitTokens [] s.data).filter fun t => t.length ≥ 2).map fun l => ⟨l⟩

namespace Irrelevant

/-- Configuration of `Irrelevant.__init__` (thresholds as rationals). -/
structure Config where
  relevant_dominance : ℚ := 4
  relevant_tf : ℚ := 1 / 1000
  clash_dominance : ℚ := 10
  clash_tf : ℚ := 1 / 200
  maximum_clash_in_relevant : ℚ := 1 / 20
  n_relevant : ℕ := 50
  n_clash : ℕ := 30
deriving DecidableEq, Repr

/-- The default-constructed configuration. -/
def defaultCfg : Config := {}

/-- Construction with `initial_keywords`: each dict entry appends its key to
`self.__classes` and its keyword lists to `self.__keywords_`. -/
def ofInitialKeywords {α : Type} (pairs : List (α × KeywordSet)) : ModelState α :=
  ⟨pairs.map Prod.fst, pairs.map Prod.snd⟩

/-- A freshly constructed object (no `initial_keywords`). -/
def emptyModel (α : Type) : ModelState α := ⟨[], []⟩

/-! ## judge (lines 157-226) -/

/-- Line 221-222: `re.search("|".join(relevant_keywords), text) is not None`.
When the relevant list is empty the joined pattern is the empty string, and
`re.search` of an empty pattern matches every text at position 0; otherwise
the alternation of plain keyword tokens matches iff some keyword occurs as a
substring. -/
def relevantPresentB (kws : List String) (text : String) : Bool :=
  kws.isEmpty || kws.any fun k => strOccursIn k text

/-- Lines 216-225: judgment of one item against its category's keyword set. -/
def judgeOne (analyze : String → List String) (ks : KeywordSet) (text : String) :
    Finset String :=
  let textL := lowerStr text
  let tokens := (analyze textL).toFinset
  let clashMatches := tokens ∩ ks.clash.toFinset
  if clashMatches ≠ ∅ ∧ relevantPresentB ks.relevant textL = false then clashMatches
  else ∅

/-- The per-item loop of `judge` (lines 214-225); raising stops the loop. -/
def judgeItems {α : Type} [DecidableEq α] (analyze : String → List String)
    (classes : List α) (keywords : List KeywordSet) :
    List (String × α) → Except Err (List (Finset String))
  | [] => .ok []
  | (t, lab) :: rest =>
    match keywords.get? (indexOfD lab classes) with
    | none => .error .indexError
    | some ks =>
      match judgeItems analyze classes keywords rest with
      | .error e => .error e
      | .ok out => .ok (judgeOne analyze ks t :: out)

/-- `Irrelevant.judge` (lines 157-226).  The three guards appear in source
order: untrained (line 202), unrecognized label (line 205), length (line 209).
`judge` never mutates the model state. -/
def judge {α : Type} [DecidableEq α] (analyze : String → List String)
    (st : ModelState α) (corpus : List String) (y : List α) :
    Except Err (List (Finset String)) :=
  if st.classes.isEmpty then .error .untrained
  else if y.any fun l => l ∉ st.classes then .error .unrecognizedLabel
  else if corpus.length ≠ y.length then .error .invalidInput
  else judgeItems analyze st.classes st.keywords (corpus.zip y)

/-! ## get_keywords (lines 228-229) -/

/-- `Irrelevant.get_keywords`.  `list(self.__classes).index(group)` raises
`ValueError` when `group` is absent — the `UnrecognizedLabel` logical kind of
design §7; the subsequent list indexing can raise `IndexError` when the state
is partial. -/
def get_keywords {α : Type} [DecidableEq α] (st : ModelState α) (group : α) :
    Except Err KeywordSet :=
  if group ∈ st.classes then
    match st.keywords.get? (indexOfD group st.classes) with
    | none => .error .indexError
    | some ks => .ok ks
  else .error .unrecognizedLabel

/-! ## fit (lines 77-155) -/

/-- The sentinel `int(1e9)` used for "infinite dominance" (lines 136-137). -/
def bigSentinel : ℚ := 10 ^ 9

/-- Checked rational division: Python `/` raises `ZeroDivisionError` on a zero
denominator. -/
def divE (a b : ℚ) : Except Err ℚ :=
  if b = 0 then .error .zeroDivision else .ok (a / b)

/-- Line 135-136 with checked division:
`ratio = float(score[REL]) / (score[CLASH] * normalizer) if score[CLASH] != 0 else int(1e9)`. -/
def ratioE (norm : ℚ) (sR sC : ℕ) : Except Err ℚ :=
  if sC ≠ 0 then divE (sR : ℚ) ((sC : ℚ) * norm) else .ok bigSentinel

/-- Line 137 with checked division:
`ratio_inverse = 1/ratio if ratio != 0.0 else int(1e9)`. -/
def invE (r : ℚ) : Except Err ℚ :=
  if r ≠ 0 then divE 1 r else .ok bigSentinel

/-- Total (unchecked) version of the line 135-136 quotient; agrees with
`ratioE` whenever the latter succeeds. -/
def ratioOf (norm : ℚ) (sR sC : ℕ) : ℚ :=
  if sC ≠ 0 then (sR : ℚ) / ((sC : ℚ) * norm) else bigSentinel

/-- Total version of line 137. -/
def invOf (r : ℚ) : ℚ := if r ≠ 0 then 1 / r else bigSentinel

/-- The score stored for a clash keyword: `float(ratio_inverse)`. -/
def clashScoreOf (norm : ℚ) (sR sC : ℕ) : ℚ := invOf (ratioOf norm sR sC)

/-- The relevant-classification test of lines 138-140 (`eR` is
`entry_count[RELEVANT]`, `sR`/`sC` the per-group document counts). -/
abbrev RelTest (cfg : Config) (eR : ℕ) (norm : ℚ) (sR sC : ℕ) : Prop :=
  ratioOf norm sR sC > cfg.relevant_dominance ∧ (sR : ℚ) ≥ cfg.relevant_tf * eR

/-- The clash-classification test of lines 142-145. -/
abbrev ClashTest (cfg : Config) (eR eC : ℕ) (norm : ℚ) (sR sC : ℕ) : Prop :=
  invOf (ratioOf norm sR sC) > cfg.clash_dominance ∧
    (sC : ℚ) ≥ cfg.clash_tf * eC ∧
    (sR : ℚ) < cfg.maximum_clash_in_relevant * eR

/-- The outcome of lines 138-146 for one token, written with the total
arithmetic; `classifyFeature` produces exactly this whenever it succeeds. -/
def classifyPure (cfg : Config) (eR eC : ℕ) (norm : ℚ) (sR sC : ℕ) :
    Option (Bool × ℚ) :=
  if RelTest cfg eR norm sR sC then some (true, (sR : ℚ))
  else if ClashTest cfg eR eC norm sR sC then some (false, clashScoreOf norm sR sC)
  else none

/-- Lines 131-146 for a single token: checked arithmetic, then the `if/elif`
classification.  `some (true, s)` means "entered the relevant dict with score
`s`", `some (false, s)` the clash dict, `none` neither. -/
def classifyFeature (cfg : Config) (eR eC : ℕ) (norm : ℚ) (sR sC : ℕ) :
    Except Err (Option (Bool × ℚ)) :=
  match ratioE norm sR sC with
  | .error e => .error e
  | .ok r =>
    match invE r with
    | .error e => .error e
    | .ok ri =>
      if r > cfg.relevant_dominance ∧ (sR : ℚ) ≥ cfg.relevant_tf * eR then
        .ok (some (true, (sR : ℚ)))
      else if ri > cfg.clash_dominance ∧ (sC : ℚ) ≥ cfg.clash_tf * eC ∧
          (sR : ℚ) < cfg.maximum_clash_in_relevant * eR then
        .ok (some (false, ri))
      else .ok none

/-- The `for feature in all_feature_set` loop (lines 130-146), building the
two keyword dicts as association lists in iteration order. -/
def classifyAll (cfg : Config) (eR eC : ℕ) (norm : ℚ) (scoreR scoreC : String → ℕ) :
    List String → Except Err (List (String × ℚ) × List (String × ℚ))
  | [] => .ok ([], [])
  | f :: rest =>
    match classifyFeature cfg eR eC norm (scoreR f) (scoreC f) with
    | .error e => .error e
    | .ok res =>
      match classifyAll cfg eR eC norm scoreR scoreC rest with
      | .error e => .error e
      | .ok (rel, cl) =>
        match res with
        | some (true, s) => .ok ((f, s) :: rel, cl)
        | some (false, s) => .ok (rel, (f, s) :: cl)
        | none => .ok (rel, cl)

/-- The comparison `np.argsort` applies to the dict values. -/
def scoreLe (a b : String × ℚ) : Prop := a.2 ≤ b.2

instance : DecidableRel scoreLe := fun a b => inferInstanceAs (Decidable (a.2 ≤ b.2))

instance : IsTotal (String × ℚ) scoreLe := ⟨fun a b => le_total a.2 b.2⟩

instance : IsTrans (String × ℚ) scoreLe := ⟨fun _ _ _ h h' => le_trans h h'⟩

/-- Lines 147-153: `np.argsort` the dict values ascending (tie order
unspecified by the unstable default sort), `np.flip`, reorder the keys
accordingly and keep the top `n` (`[:n]`). -/
def selectTop (pairs : List (String × ℚ)) (n : ℕ) : List String :=
  (((pairs.insertionSort scoreLe).reverse).take n).map Prod.fst

/-- `itertools.compress(corpus, y == current_class)` (line 108); the corpus
has already been lowercased in place. -/
def thisGroupOf {α : Type} [DecidableEq α] (corpusL : List String) (y : List α)
    (c : α) : List String :=
  ((corpusL.zip y).filter fun p => p.2 = c).map Prod.fst

/-- `itertools.compress(corpus, y != current_class)` (line 109). -/
def otherGroupsOf {α : Type} [DecidableEq α] (corpusL : List String) (y : List α)
    (c : α) : List String :=
  ((corpusL.zip y).filter fun p => p.2 ≠ c).map Prod.fst

/-- The vocabulary `CountVectorizer` extracts from a document list. -/
def vocabOf (analyze : String → List String) (docs : List String) : List String :=
  (docs.flatMap analyze).dedup

/-- Column sums of the binary incidence matrix (lines 119, 131-134): the
number of documents of the group containing the token (0 when the token is
outside the group's vocabulary). -/
def docCount (analyze : String → List String) (docs : List String) (f : String) : ℕ :=
  (docs.filter fun d => f ∈ analyze d).length

/-- `all_feature_set` (line 124), in a fixed iteration order. -/
def allFeaturesOf {α : Type} [DecidableEq α] (analyze : String → List String)
    (corpusL : List String) (y : List α) (c : α) : List String :=
  (vocabOf analyze (thisGroupOf corpusL y c) ++
    vocabOf analyze (otherGroupsOf corpusL y c)).dedup

/-- The (total) value of `normalizer` (line 123). -/
def normOf {α : Type} [DecidableEq α] (corpusL : List String) (y : List α) (c : α) : ℚ :=
  ((thisGroupOf corpusL y c).length : ℚ) / ((otherGroupsOf corpusL y c).length : ℚ)

/-- The relevant-keyword dict of lines 126-141 as a pure association list:
the features passing the relevant test, each with score `float(score[REL])`. -/
def relPairsPure (cfg : Config) (eR : ℕ) (norm : ℚ) (scoreR scoreC : String → ℕ)
    (feats : List String) : List (String × ℚ) :=
  (feats.filter fun f => decide (RelTest cfg eR norm (scoreR f) (scoreC f))).map
    fun f => (f, (scoreR f : ℚ))

/-- The clash-keyword dict of lines 126-146 as a pure association list: the
features failing the relevant test and passing the clash test, each with
score `float(ratio_inverse)`. -/
def clashPairsPure (cfg : Config) (eR eC : ℕ) (norm : ℚ)
    (scoreR scoreC : String → ℕ) (feats : List String) : List (String × ℚ) :=
  (feats.filter fun f =>
      decide (¬ RelTest cfg eR norm (scoreR f) (scoreC f) ∧
        ClashTest cfg eR eC norm (scoreR f) (scoreC f))).map
    fun f => (f, clashScoreOf norm (scoreR f) (scoreC f))

/-- The relevant-keyword list stored for class `c` by a successful `fit`. -/
def relevantKeywordsOf {α : Type} [DecidableEq α] (cfg : Config)
    (analyze : String → List String) (corpusL : List String) (y : List α)
    (c : α) : List String :=
  selectTop
    (relPairsPure cfg (thisGroupOf corpusL y c).length (normOf corpusL y c)
      (docCount analyze (thisGroupOf corpusL y c))
      (docCount analyze (otherGroupsOf corpusL y c))
      (allFeaturesOf analyze corpusL y c))
    cfg.n_relevant

/-- The clash-keyword list stored for class `c` by a successful `fit`. -/
def clashKeywordsOf {α : Type} [DecidableEq α] (cfg : Config)
    (analyze : String → List String) (corpusL : List String) (y : List α)
    (c : α) : List String :=
  selectTop
    (clashPairsPure cfg (thisGroupOf corpusL y c).length
      (otherGroupsOf corpusL y c).length (normOf corpusL y c)
      (docCount analyze (thisGroupOf corpusL y c))
      (docCount analyze (otherGroupsOf corpusL y c))
      (allFeaturesOf analyze corpusL y c))
    cfg.n_clash

/-- The body of the `for current_class in self.__classes` loop
(lines 108-155) for one class.  `fit_transform` is invoked first on the
in-group, then on the out-group (the dict comprehension on line 116), each
raising on an empty vocabulary; then the normalizer division (line 123), the
token loop, and the sort-and-truncate step. -/
def fitOneClass {α : Type} [DecidableEq α] (cfg : Config)
    (analyze : String → List String) (corpusL : List String) (y : List α)
    (c : α) : Except Err KeywordSet :=
  if vocabOf analyze (thisGroupOf corpusL y c) = [] then .error .emptyVocabulary
  else if vocabOf analyze (otherGroupsOf corpusL y c) = [] then .error .emptyVocabulary
  else
    match divE ((thisGroupOf corpusL y c).length : ℚ)
        ((otherGroupsOf corpusL y c).length : ℚ) with
    | .error e => .error e
    | .ok norm =>
      match classifyAll cfg (thisGroupOf corpusL y c).length
          (otherGroupsOf corpusL y c).length norm
          (docCount analyze (thisGroupOf corpusL y c))
          (docCount analyze (otherGroupsOf corpusL y c))
          (allFeaturesOf analyze corpusL y c) with
      | .error e => .error e
      | .ok (relPairs, clPairs) =>
        .ok ⟨selectTop relPairs cfg.n_relevant, selectTop clPairs cfg.n_clash⟩

/-- The loop over `self.__classes` appending to `self.__keywords_`
(lines 107-155); an exception stops the loop, leaving the keyword sets built
so far (carried on the error branch). -/
def fitClasses {α : Type} [DecidableEq α] (cfg : Config)
    (analyze : String → List String) (corpusL : List String) (y : List α) :
    List α → Except (Err × List KeywordSet) (List KeywordSet)
  | [] => .ok []
  | c :: rest =>
    match fitOneClass cfg analyze corpusL y c with
    | .error e => .error (e, [])
    | .ok ks =>
      match fitClasses cfg analyze corpusL y rest with
      | .error (e, acc) => .error (e, ks :: acc)
      | .ok acc => .ok (ks :: acc)

/-- `Irrelevant.fit` (lines 77-155).  The length guard (line 96) raises
before any mutation; past it, lines 99-106 replace `self.__keywords_` with
`[]` and `self.__classes` with the distinct labels, so an exception raised
inside the class loop leaves the new classes with the partially rebuilt
keyword list (the error branch carries that state). -/
def fit {α : Type} [DecidableEq α] (cfg : Config) (analyze : String → List String)
    (st : ModelState α) (corpus : List String) (y : List α) :
    Except (Err × ModelState α) (ModelState α) :=
  if corpus.length ≠ y.length then .error (.invalidInput, st)
  else
    match fitClasses cfg analyze (corpus.map lowerStr) y y.dedup with
    | .error (e, acc) => .error (e, ⟨y.dedup, acc⟩)
    | .ok kws => .ok ⟨y.dedup, kws⟩

end Irrelevant
namespace Irrelevant

theorem invE_eq (r : ℚ) : invE r = .ok (invOf r) := by
  unfold invE invOf divE
  by_cases h : r = 0 <;> simp [h]

theorem ratioE_cases (norm : ℚ) (sR sC : ℕ) :
    ratioE norm sR sC = .ok (ratioOf norm sR sC) ∨
    (sC ≠ 0 ∧ (sC : ℚ) * norm = 0 ∧ ratioE norm sR sC = .error .zeroDivision) := by
  unfold ratioE ratioOf divE
  by_cases hC : sC = 0
  · left; simp [hC]
  · by_cases hz : (sC : ℚ) * norm = 0
    · right; simp [hC, hz]
    · left; simp [hC, hz]

theorem classifyFeature_ok {cfg : Config} {eR eC : ℕ} {norm : ℚ} {sR sC : ℕ}
    {out : Option (Bool × ℚ)}
    (h : classifyFeature cfg eR eC norm sR sC = .ok out) :
    out = classifyPure cfg eR eC norm sR sC := by
  unfold classifyFeature at h
  rcases ratioE_cases norm sR sC with he | ⟨_, _, he⟩
  · simp only [he, invE_eq] at h
    unfold classifyPure clashScoreOf
    by_cases hR : RelTest cfg eR norm sR sC
    · rw [if_pos hR] at h ⊢
      exact (Except.ok.inj h).symm
    · rw [if_neg hR] at h ⊢
      by_cases hCl : ClashTest cfg eR eC norm sR sC
      · rw [if_pos hCl] at h ⊢
        exact (Except.ok.inj h).symm
      · rw [if_neg hCl] at h ⊢
        exact (Except.ok.inj h).symm
  · rw [he] at h
    exact Except.noConfusion h

theorem classifyFeature_ne_error {cfg : Config} {eR eC : ℕ} {norm : ℚ}
    {sR sC : ℕ} (hn : norm ≠ 0) (e : Err) :
    classifyFeature cfg eR eC norm sR sC ≠ .error e := by
  unfold classifyFeature
  rcases ratioE_cases norm sR sC with he | ⟨hC, hz, _⟩
  · simp only [he, invE_eq]
    by_cases hR : RelTest cfg eR norm sR sC
    · rw [if_pos hR]; simp
    · rw [if_neg hR]
      by_cases hCl : ClashTest cfg eR eC norm sR sC
      · rw [if_pos hCl]; simp
      · rw [if_neg hCl]; simp
  · exact absurd hz (mul_ne_zero (Nat.cast_ne_zero.mpr hC) hn)

end Irrelevant

namespace Irrelevant

theorem classifyAll_ok {cfg : Config} {eR eC : ℕ} {norm : ℚ}
    {scoreR scoreC : String → ℕ} :
    ∀ {feats : List String} {rel cl : List (String × ℚ)},
      classifyAll cfg eR eC norm scoreR scoreC feats = .ok (rel, cl) →
      rel = relPairsPure cfg eR norm scoreR scoreC feats ∧
      cl = clashPairsPure cfg eR eC norm scoreR scoreC feats := by
  intro feats
  induction feats with
  | nil =>
    intro rel cl h
    unfold classifyAll at h
    obtain ⟨h1, h2⟩ := Prod.mk.injEq .. ▸ (Except.ok.inj h)
    simp [relPairsPure, clashPairsPure, ← h1, ← h2]
  | cons f rest ih =>
    intro rel cl h
    unfold classifyAll at h
    cases h1 : classifyFeature cfg eR eC norm (scoreR f) (scoreC f) with
    | error e => rw [h1] at h; exact Except.noConfusion h
    | ok res =>
      rw [h1] at h
      cases h2 : classifyAll cfg eR eC norm scoreR scoreC rest with
      | error e => rw [h2] at h; exact Except.noConfusion h
      | ok p =>
        obtain ⟨rel', cl'⟩ := p
        rw [h2] at h
        obtain ⟨hrel', hcl'⟩ := ih h2
        have hres := classifyFeature_ok h1
        subst hres
        unfold classifyPure at h
        by_cases hR : RelTest cfg eR norm (scoreR f) (scoreC f)
        · rw [if_pos hR] at h
          obtain ⟨ha, hb⟩ := Prod.mk.injEq .. ▸ (Except.ok.inj h)
          refine ⟨?_, ?_⟩
          · rw [← ha, hrel']
            unfold relPairsPure
            rw [List.filter_cons]
            simp [hR]
          · rw [← hb, hcl']
            unfold clashPairsPure
            rw [List.filter_cons]
            simp [hR]
        · rw [if_neg hR] at h
          by_cases hCl : ClashTest cfg eR eC norm (scoreR f) (scoreC f)
          · rw [if_pos hCl] at h
            obtain ⟨ha, hb⟩ := Prod.mk.injEq .. ▸ (Except.ok.inj h)
            refine ⟨?_, ?_⟩
            · rw [← ha, hrel']
              unfold relPairsPure
              rw [List.filter_cons]
              simp [hR]
            · rw [← hb, hcl']
              unfold clashPairsPure
              rw [List.filter_cons]
              simp [hR, hCl]
          · rw [if_neg hCl] at h
            obtain ⟨ha, hb⟩ := Prod.mk.injEq .. ▸ (Except.ok.inj h)
            refine ⟨?_, ?_⟩
            · rw [← ha, hrel']
              unfold relPairsPure
              rw [List.filter_cons]
              simp [hR]
            · rw [← hb, hcl']
              unfold clashPairsPure
              rw [List.filter_cons]
              simp [hR, hCl]

theorem classifyAll_ne_error {cfg : Config} {eR eC : ℕ} {norm : ℚ}
    {scoreR scoreC : String → ℕ} (hn : norm ≠ 0) :
    ∀ (feats : List String) (e : Err),
      classifyAll cfg eR eC norm scoreR scoreC feats ≠ .error e := by
  intro feats
  induction feats with
  | nil => intro e h; unfold classifyAll at h; exact Except.noConfusion h
  | cons f rest ih =>
    intro e h
    unfold classifyAll at h
    cases h1 : classifyFeature cfg eR eC norm (scoreR f) (scoreC f) with
    | error e' => exact classifyFeature_ne_error hn e' h1
    | ok res =>
      rw [h1] at h
      cases h2 : classifyAll cfg eR eC norm scoreR scoreC rest with
      | error e' => exact ih e' h2
      | ok p =>
        obtain ⟨rel', cl'⟩ := p
        rw [h2] at h
        cases res with
        | none => exact Except.noConfusion h
        | some b =>
          obtain ⟨bb, s⟩ := b
          cases bb <;> exact Except.noConfusion h

end Irrelevant

namespace Irrelevant

theorem vocabOf_nil (analyze : String → List String) : vocabOf analyze [] = [] := rfl

theorem normOf_eq {α : Type} [DecidableEq α] (corpusL : List String) (y : List α)
    (c : α) (h : ((otherGroupsOf corpusL y c).length : ℚ) ≠ 0) :
    divE ((thisGroupOf corpusL y c).length : ℚ)
      ((otherGroupsOf corpusL y c).length : ℚ) = .ok (normOf corpusL y c) := by
  unfold divE normOf
  rw [if_neg h]

theorem fitOneClass_ok {α : Type} [DecidableEq α] {cfg : Config}
    {analyze : String → List String} {corpusL : List String} {y : List α}
    {c : α} {ks : KeywordSet}
    (h : fitOneClass cfg analyze corpusL y c = .ok ks) :
    ks = ⟨relevantKeywordsOf cfg analyze corpusL y c,
          clashKeywordsOf cfg analyze corpusL y c⟩ := by
  unfold fitOneClass at h
  split at h
  · exact Except.noConfusion h
  · split at h
    · exact Except.noConfusion h
    · rename_i h1 h2
      have hO : otherGroupsOf corpusL y c ≠ [] := by
        intro hnil; exact h2 (by rw [hnil, vocabOf_nil])
      have hOq : ((otherGroupsOf corpusL y c).length : ℚ) ≠ 0 :=
        Nat.cast_ne_zero.mpr (by
          intro h0
          exact hO (List.length_eq_zero.mp h0))
      simp only [normOf_eq corpusL y c hOq] at h
      cases h3 : classifyAll cfg (thisGroupOf corpusL y c).length
          (otherGroupsOf corpusL y c).length (normOf corpusL y c)
          (docCount analyze (thisGroupOf corpusL y c))
          (docCount analyze (otherGroupsOf corpusL y c))
          (allFeaturesOf analyze corpusL y c) with
      | error e => rw [h3] at h; exact Except.noConfusion h
      | ok p =>
        obtain ⟨relPairs, clPairs⟩ := p
        rw [h3] at h
        obtain ⟨ha, hb⟩ := classifyAll_ok h3
        have := Except.ok.inj h
        rw [← this, ha, hb]
        rfl

theorem fitOneClass_err {α : Type} [DecidableEq α] {cfg : Config}
    {analyze : String → List String} {corpusL : List String} {y : List α}
    {c : α} {e : Err}
    (h : fitOneClass cfg analyze corpusL y c = .error e) :
    e = .emptyVocabulary := by
  unfold fitOneClass at h
  split at h
  · exact (Except.error.inj h).symm
  · split at h
    · exact (Except.error.inj h).symm
    · rename_i h1 h2
      have hT : thisGroupOf corpusL y c ≠ [] := by
        intro hnil; exact h1 (by rw [hnil, vocabOf_nil])
      have hO : otherGroupsOf corpusL y c ≠ [] := by
        intro hnil; exact h2 (by rw [hnil, vocabOf_nil])
      have hTq : ((thisGroupOf corpusL y c).length : ℚ) ≠ 0 :=
        Nat.cast_ne_zero.mpr (by
          intro h0; exact hT (List.length_eq_zero.mp h0))
      have hOq : ((otherGroupsOf corpusL y c).length : ℚ) ≠ 0 :=
        Nat.cast_ne_zero.mpr (by
          intro h0; exact hO (List.length_eq_zero.mp h0))
      simp only [normOf_eq corpusL y c hOq] at h
      have hn : normOf corpusL y c ≠ 0 := by
        unfold normOf
        exact div_ne_zero hTq hOq
      cases h3 : classifyAll cfg (thisGroupOf corpusL y c).length
          (otherGroupsOf corpusL y c).length (normOf corpusL y c)
          (docCount analyze (thisGroupOf corpusL y c))
          (docCount analyze (otherGroupsOf corpusL y c))
          (allFeaturesOf analyze corpusL y c) with
      | error e' => exact absurd h3 (classifyAll_ne_error hn _ e')
      | ok p =>
        obtain ⟨relPairs, clPairs⟩ := p
        rw [h3] at h
        exact Except.noConfusion h

theorem fitClasses_ok {α : Type} [DecidableEq α] {cfg : Config}
    {analyze : String → List String} {corpusL : List String} {y : List α} :
    ∀ {cs : List α} {acc : List KeywordSet},
      fitClasses cfg analyze corpusL y cs = .ok acc →
      ∀ i (c : α) (ks : KeywordSet), cs.get? i = some c → acc.get? i = some ks →
        fitOneClass cfg analyze corpusL y c = .ok ks := by
  intro cs
  induction cs with
  | nil =>
    intro acc h i c ks hc
    rw [List.get?_nil] at hc
    exact absurd hc (by simp)
  | cons c rest ih =>
    intro acc h
    unfold fitClasses at h
    cases h1 : fitOneClass cfg analyze corpusL y c with
    | error e => rw [h1] at h; exact Except.noConfusion h
    | ok ks =>
      rw [h1] at h
      cases h2 : fitClasses cfg analyze corpusL y rest with
      | error p => rw [h2] at h; exact Except.noConfusion h
      | ok acc' =>
        rw [h2] at h
        have hg := ih h2
        rw [← Except.ok.inj h]
        intro i c' ks' hc' hks'
        cases i with
        | zero =>
          rw [List.get?_cons_zero] at hc' hks'
          rw [← Option.some.inj hc', ← Option.some.inj hks']
          exact h1
        | succ j =>
          rw [List.get?_cons_succ] at hc' hks'
          exact hg j c' ks' hc' hks' 

theorem fitClasses_err {α : Type} [DecidableEq α] {cfg : Config}
    {analyze : String → List String} {corpusL : List String} {y : List α} :
    ∀ {cs : List α} {e : Err} {acc : List KeywordSet},
      fitClasses cfg analyze corpusL y cs = .error (e, acc) →
      ∃ c ∈ cs, fitOneClass cfg analyze corpusL y c = .error e := by
  intro cs
  induction cs with
  | nil =>
    intro e acc h
    unfold fitClasses at h
    exact Except.noConfusion h
  | cons c rest ih =>
    intro e acc h
    unfold fitClasses at h
    cases h1 : fitOneClass cfg analyze corpusL y c with
    | error e' =>
      rw [h1] at h
      obtain ⟨he, _⟩ := Prod.mk.injEq .. ▸ (Except.error.inj h)
      exact ⟨c, List.mem_cons_self c rest, by rw [h1, he]⟩
    | ok ks =>
      rw [h1] at h
      cases h2 : fitClasses cfg analyze corpusL y rest with
      | error p =>
        obtain ⟨e', acc'⟩ := p
        rw [h2] at h
        obtain ⟨he, _⟩ := Prod.mk.injEq .. ▸ (Except.error.inj h)
        obtain ⟨c', hc', hfc⟩ := ih h2
        exact ⟨c', List.mem_cons_of_mem c hc', by rw [hfc, he]⟩
      | ok acc' =>
        rw [h2] at h
        exact Except.noConfusion h

end Irrelevant

namespace Irrelevant

theorem fit_len {α : Type} [DecidableEq α] (cfg : Config)
    (analyze : String → List String) (st : ModelState α) (corpus : List String)
    (y : List α) (h : corpus.length ≠ y.length) :
    fit cfg analyze st corpus y = .error (.invalidInput, st) := by
  unfold fit
  rw [if_pos h]

theorem fit_ok {α : Type} [DecidableEq α] {cfg : Config}
    {analyze : String → List String} {st : ModelState α} {corpus : List String}
    {y : List α} {st' : ModelState α}
    (h : fit cfg analyze st corpus y = .ok st') :
    corpus.length = y.length ∧ st'.classes = y.dedup ∧
      fitClasses cfg analyze (corpus.map lowerStr) y y.dedup = .ok st'.keywords := by
  unfold fit at h
  split at h
  · exact Except.noConfusion h
  · rename_i hlen
    cases hfc : fitClasses cfg analyze (corpus.map lowerStr) y y.dedup with
    | error p => rw [hfc] at h; exact Except.noConfusion h
    | ok kws =>
      rw [hfc] at h
      rw [← Except.ok.inj h]
      exact ⟨Decidable.not_not.mp hlen, rfl, rfl⟩

theorem fit_err {α : Type} [DecidableEq α] {cfg : Config}
    {analyze : String → List String} {st : ModelState α} {corpus : List String}
    {y : List α} {e : Err} {st'' : ModelState α}
    (h : fit cfg analyze st corpus y = .error (e, st'')) :
    e = .invalidInput ∨
      ∃ c ∈ y.dedup,
        fitOneClass cfg analyze (corpus.map lowerStr) y c = .error e := by
  unfold fit at h
  split at h
  · obtain ⟨he, _⟩ := Prod.mk.injEq .. ▸ (Except.error.inj h)
    exact Or.inl he.symm
  · cases hfc : fitClasses cfg analyze (corpus.map lowerStr) y y.dedup with
    | error p =>
      obtain ⟨e', acc⟩ := p
      rw [hfc] at h
      obtain ⟨he, _⟩ := Prod.mk.injEq .. ▸ (Except.error.inj h)
      exact Or.inr (he ▸ fitClasses_err hfc)
    | ok kws =>
      rw [hfc] at h
      exact Except.noConfusion h

theorem indexOfD_get? {α : Type} [DecidableEq α] {a : α} :
    ∀ {l : List α}, a ∈ l → l.get? (indexOfD a l) = some a := by
  intro l
  induction l with
  | nil => intro h; exact absurd h (List.not_mem_nil a)
  | cons b t ih =>
    intro h
    by_cases hb : b = a
    · simp [indexOfD, hb]
    · have ha : a ∈ t := by
        cases List.mem_cons.mp h with
        | inl h' => exact absurd h'.symm hb
        | inr h' => exact h'
      simp only [indexOfD, if_neg hb, List.get?_cons_succ]
      exact ih ha

theorem get_keywords_ok {α : Type} [DecidableEq α] {st : ModelState α}
    {g : α} {ks : KeywordSet} (h : get_keywords st g = .ok ks) :
    g ∈ st.classes ∧ st.keywords.get? (indexOfD g st.classes) = some ks := by
  unfold get_keywords at h
  split at h
  · rename_i hg
    cases hk : st.keywords.get? (indexOfD g st.classes) with
    | none => rw [hk] at h; exact Except.noConfusion h
    | some ks' =>
      rw [hk] at h
      have hks : ks' = ks := Except.ok.inj h
      exact ⟨hg, by rw [hks]⟩
  · exact Except.noConfusion h

theorem fit_get_keywords_ok {α : Type} [DecidableEq α] {cfg : Config}
    {analyze : String → List String} {st : ModelState α} {corpus : List String}
    {y : List α} {st' : ModelState α} {c : α} {ks : KeywordSet}
    (hf : fit cfg analyze st corpus y = .ok st')
    (hg : get_keywords st' c = .ok ks) :
    fitOneClass cfg analyze (corpus.map lowerStr) y c = .ok ks := by
  obtain ⟨_, hcl, hfc⟩ := fit_ok hf
  obtain ⟨hmem, hget⟩ := get_keywords_ok hg
  rw [hcl] at hmem hget
  exact fitClasses_ok hfc (indexOfD c y.dedup) c ks (indexOfD_get? hmem) hget

end Irrelevant

namespace Irrelevant

theorem selectTop_subset {pairs : List (String × ℚ)} {n : ℕ} {t : String}
    (h : t ∈ selectTop pairs n) : t ∈ pairs.map Prod.fst := by
  unfold selectTop at h
  obtain ⟨p, hp, hpt⟩ := List.mem_map.mp h
  have hp3 : p ∈ pairs :=
    (List.perm_insertionSort scoreLe pairs).mem_iff.mp
      (List.mem_reverse.mp (List.mem_of_mem_take hp))
  exact hpt ▸ List.mem_map_of_mem Prod.fst hp3

theorem selectTop_nodup {pairs : List (String × ℚ)} {n : ℕ}
    (h : (pairs.map Prod.fst).Nodup) : (selectTop pairs n).Nodup := by
  unfold selectTop
  have h1 : ((pairs.insertionSort scoreLe).map Prod.fst).Nodup :=
    h.perm ((List.perm_insertionSort scoreLe pairs).map Prod.fst).symm
  rw [List.map_take, List.map_reverse]
  exact List.Nodup.sublist (List.take_sublist n _) (List.nodup_reverse.mpr h1)

theorem selectTop_length (pairs : List (String × ℚ)) (n : ℕ) :
    (selectTop pairs n).length ≤ n := by
  unfold selectTop
  rw [List.length_map, List.length_take]
  exact min_le_left n _

theorem selectTop_sorted {pairs : List (String × ℚ)} {n : ℕ}
    (scoreFn : String → ℚ) (hs : ∀ p ∈ pairs, p.2 = scoreFn p.1) :
    ((selectTop pairs n).map scoreFn).Sorted (· ≥ ·) := by
  unfold selectTop
  rw [List.map_map]
  show List.Pairwise _ _
  rw [List.pairwise_map]
  have hrev : List.Pairwise (fun a b => scoreLe b a)
      (pairs.insertionSort scoreLe).reverse :=
    List.pairwise_reverse.mpr (List.sorted_insertionSort scoreLe pairs)
  have htake := List.Pairwise.sublist (List.take_sublist n _) hrev
  refine List.Pairwise.imp_of_mem ?_ htake
  intro a b ha hb hR
  have hmem : ∀ {p : String × ℚ},
      p ∈ ((pairs.insertionSort scoreLe).reverse).take n → p ∈ pairs := fun hp =>
    (List.perm_insertionSort scoreLe pairs).mem_iff.mp
      (List.mem_reverse.mp (List.mem_of_mem_take hp))
  have ha' := hs a (hmem ha)
  have hb' := hs b (hmem hb)
  show scoreFn (Prod.fst a) ≥ scoreFn (Prod.fst b)
  rw [← ha', ← hb']
  exact hR

theorem relPairsPure_fst (cfg : Config) (eR : ℕ) (norm : ℚ)
    (scoreR scoreC : String → ℕ) (feats : List String) :
    (relPairsPure cfg eR norm scoreR scoreC feats).map Prod.fst =
      feats.filter fun f => decide (RelTest cfg eR norm (scoreR f) (scoreC f)) := by
  unfold relPairsPure
  rw [List.map_map]
  exact List.map_id _

theorem clashPairsPure_fst (cfg : Config) (eR eC : ℕ) (norm : ℚ)
    (scoreR scoreC : String → ℕ) (feats : List String) :
    (clashPairsPure cfg eR eC norm scoreR scoreC feats).map Prod.fst =
      feats.filter fun f =>
        decide (¬ RelTest cfg eR norm (scoreR f) (scoreC f) ∧
          ClashTest cfg eR eC norm (scoreR f) (scoreC f)) := by
  unfold clashPairsPure
  rw [List.map_map]
  exact List.map_id _

theorem relPairsPure_snd {cfg : Config} {eR : ℕ} {norm : ℚ}
    {scoreR scoreC : String → ℕ} {feats : List String} :
    ∀ p ∈ relPairsPure cfg eR norm scoreR scoreC feats,
      p.2 = ((scoreR p.1 : ℚ)) := by
  intro p hp
  obtain ⟨f, _, hf⟩ := List.mem_map.mp hp
  rw [← hf]

theorem clashPairsPure_snd {cfg : Config} {eR eC : ℕ} {norm : ℚ}
    {scoreR scoreC : String → ℕ} {feats : List String} :
    ∀ p ∈ clashPairsPure cfg eR eC norm scoreR scoreC feats,
      p.2 = clashScoreOf norm (scoreR p.1) (scoreC p.1) := by
  intro p hp
  obtain ⟨f, _, hf⟩ := List.mem_map.mp hp
  rw [← hf]

theorem judge_untrained {α : Type} [DecidableEq α] (analyze : String → List String)
    (st : ModelState α) (corpus : List String) (y : List α)
    (h : st.classes = []) : judge analyze st corpus y = .error .untrained := by
  unfold judge
  rw [if_pos (by rw [h]; rfl)]

theorem judge_unrecognized {α : Type} [DecidableEq α]
    (analyze : String → List String) (st : ModelState α) (corpus : List String)
    (y : List α) (h1 : st.classes ≠ [])
    (h2 : ∃ l ∈ y, l ∉ st.classes) :
    judge analyze st corpus y = .error .unrecognizedLabel := by
  unfold judge
  rw [if_neg (by simp [List.isEmpty_iff, h1]), if_pos]
  obtain ⟨l, hl, hnot⟩ := h2
  exact List.any_eq_true.mpr ⟨l, hl, by simpa using hnot⟩

theorem judge_invalid {α : Type} [DecidableEq α]
    (analyze : String → List String) (st : ModelState α) (corpus : List String)
    (y : List α) (h1 : st.classes ≠ []) (h2 : ∀ l ∈ y, l ∈ st.classes)
    (h3 : corpus.length ≠ y.length) :
    judge analyze st corpus y = .error .invalidInput := by
  unfold judge
  rw [if_neg (by simp [List.isEmpty_iff, h1]), if_neg ?_, if_pos h3]
  simp only [List.any_eq_true, not_exists]
  rintro l ⟨hl, hdec⟩
  exact (of_decide_eq_true hdec) (h2 l hl)

theorem get_keywords_unrecognized {α : Type} [DecidableEq α]
    (st : ModelState α) (g : α) (h : g ∉ st.classes) :
    get_keywords st g = .error .unrecognizedLabel := by
  unfold get_keywords
  rw [if_neg h]

end Irrelevant

unseal Rat.mul Rat.inv Rat.add Rat.sub

namespace Irrelevant

/-- C1: the spec requires that an empty relevant-keyword list never produce a
"relevant present" match, so an exact-token clash match is still reported.
The code joins the relevant keywords into a regex alternation; for an empty
list the pattern is the empty string, which `re.search` matches on every
text, so the clash match `{"bag"}` is suppressed and `judge` returns the
empty set instead of the claimed non-empty clash set. -/
theorem c1_empty_relevant_list_matches_everything :
    relevantPresentB [] (lowerStr "bag") = true ∧
    (analyzeSimple (lowerStr "bag")).toFinset ∩
      (KeywordSet.mk [] ["bag"]).clash.toFinset = {"bag"} ∧
    judge analyzeSimple (ofInitialKeywords [("cat1", KeywordSet.mk [] ["bag"])])
      ["bag"] ["cat1"] = .ok [∅] :=
  ⟨by decide, by decide, by decide⟩

/-- C2: the claimed judgment rule — report the non-empty exact-token clash
intersection whenever no relevant keyword occurs as a substring — fails on
the code when the relevant list is empty: for the item "black shoes" the
clash intersection is the non-empty `{"shoes"}` and no relevant keyword
occurs (the list is empty), yet the code returns the empty set because the
empty alternation pattern matches the text. -/
theorem c2_judgment_rule_fails_on_empty_relevant :
    (analyzeSimple (lowerStr "black shoes")).toFinset ∩
      (KeywordSet.mk [] ["shoes"]).clash.toFinset = {"shoes"} ∧
    ({"shoes"} : Finset String) ≠ ∅ ∧
    judge analyzeSimple (ofInitialKeywords [("cat1", KeywordSet.mk [] ["shoes"])])
      ["black shoes"] ["cat1"] = .ok [∅] :=
  ⟨by decide, by decide, by decide⟩

/-- C3 counterexample: a `fit` call that fails after the length validation
(single category, hence an empty out-group and an empty-vocabulary error from
the vectorizer) does NOT leave the previously committed state intact: the
prior classes/keywords are replaced by the new (partial) ones. -/
theorem c3_counterexample :
    fit defaultCfg analyzeSimple
        (ModelState.mk ["a"] [KeywordSet.mk ["rr"] ["cc"]]) ["shoe"] ["b"]
      = .error (.emptyVocabulary, ModelState.mk ["b"] []) ∧
    ModelState.mk ["b"] ([] : List KeywordSet) ≠
      ModelState.mk ["a"] [KeywordSet.mk ["rr"] ["cc"]] :=
  ⟨by decide, by decide⟩

/-- C3 (amended): only a `fit` call failing the length validation is
guaranteed to leave the previously committed model state intact, exactly as
it was before the call; a `fit` failing after that validation has already
cleared the state. -/
theorem c3_amended_length_failure_preserves_state {α : Type} [DecidableEq α]
    (cfg : Config) (analyze : String → List String) (st : ModelState α)
    (corpus : List String) (y : List α) (h : corpus.length ≠ y.length) :
    fit cfg analyze st corpus y = .error (.invalidInput, st) :=
  fit_len cfg analyze st corpus y h

/-- Witness for C3 (amended) at a concrete input. -/
theorem c3_witness :
    (["shoe"].length ≠ ([] : List String).length) ∧
    fit defaultCfg analyzeSimple
        (ModelState.mk ["a"] [KeywordSet.mk ["rr"] ["cc"]]) ["shoe"] []
      = .error (.invalidInput, ModelState.mk ["a"] [KeywordSet.mk ["rr"] ["cc"]]) :=
  ⟨by decide,
   c3_amended_length_failure_preserves_state defaultCfg analyzeSimple
     (ModelState.mk ["a"] [KeywordSet.mk ["rr"] ["cc"]]) ["shoe"] [] (by decide)⟩

/-- C4 counterexample: `judge` with mismatched corpus/label lengths does not
always fail with `InvalidInput`: on an untrained model the untrained check
fires first. -/
theorem c4_counterexample :
    judge analyzeSimple (emptyModel String) ["x", "y"] [] = .error .untrained ∧
    Err.untrained ≠ Err.invalidInput :=
  ⟨by decide, by decide⟩

/-- C4 (amended): with mismatched corpus/label lengths, `fit` always fails
with `InvalidInput` leaving the state unchanged; `judge` fails with
`InvalidInput` provided the model has known categories and every label is
known (otherwise the untrained / unrecognized-label checks fire first), and
`judge` never mutates the state. -/
theorem c4_amended_length_validation {α : Type} [DecidableEq α] (cfg : Config)
    (analyze : String → List String) (st : ModelState α)
    (corpus : List String) (y : List α) (h : corpus.length ≠ y.length) :
    fit cfg analyze st corpus y = .error (.invalidInput, st) ∧
    (st.classes ≠ [] → (∀ l ∈ y, l ∈ st.classes) →
      judge analyze st corpus y = .error .invalidInput) :=
  ⟨fit_len cfg analyze st corpus y h,
   fun h1 h2 => judge_invalid analyze st corpus y h1 h2 h⟩

/-- Witness for C4 (amended) at a concrete input. -/
theorem c4_witness :
    fit defaultCfg analyzeSimple (ofInitialKeywords [("c1", KeywordSet.mk ["rr"] ["cc"])])
        ["a", "b"] ["c1"]
      = .error (.invalidInput, ofInitialKeywords [("c1", KeywordSet.mk ["rr"] ["cc"])]) ∧
    judge analyzeSimple (ofInitialKeywords [("c1", KeywordSet.mk ["rr"] ["cc"])])
        ["a", "b"] ["c1"] = .error .invalidInput := by
  obtain ⟨h1, h2⟩ := c4_amended_length_validation defaultCfg analyzeSimple
    (ofInitialKeywords [("c1", KeywordSet.mk ["rr"] ["cc"])]) ["a", "b"] ["c1"]
    (by decide)
  exact ⟨h1, h2 (by decide) (by decide)⟩

/-- C5: under the precondition that every category occurring in the labels
has a non-empty out-group, `fit` performs no division by zero — no error it
raises is the `ZeroDivisionError` of the normalizer/ratio computation.  (In
fact the vectorizer's empty-vocabulary error always precedes any zero
denominator.) -/
theorem c5_no_division_by_zero {α : Type} [DecidableEq α] (cfg : Config)
    (analyze : String → List String) (st : ModelState α)
    (corpus : List String) (y : List α)
    (_hpre : ∀ c ∈ y, y.filter (fun d => decide (d ≠ c)) ≠ []) :
    ∀ (e : Err) (st'' : ModelState α),
      fit cfg analyze st corpus y = .error (e, st'') → e ≠ .zeroDivision := by
  intro e st'' h
  rcases fit_err h with h1 | ⟨c, _, h2⟩
  · rw [h1]; exact fun hc => Err.noConfusion hc
  · rw [fitOneClass_err h2]; exact fun hc => Err.noConfusion hc

/-- Witness for C5 at a concrete input (two distinct labels, so the
precondition holds; the call fails, but with the empty-vocabulary error, not
a division by zero). -/
theorem c5_witness :
    (∀ c ∈ (["a", "b"] : List String),
      (["a", "b"] : List String).filter (fun d => decide (d ≠ c)) ≠ []) ∧
    Err.emptyVocabulary ≠ Err.zeroDivision :=
  ⟨by decide,
   c5_no_division_by_zero defaultCfg analyzeSimple (emptyModel String)
     ["", ""] ["a", "b"] (by decide) .emptyVocabulary
     (ModelState.mk ["a", "b"] []) (by decide)⟩

end Irrelevant

namespace Irrelevant

/-- C6: a token passing the relevant-classification test for its category is
never placed in that category's stored clash list by a successful `fit`
(the `elif` on line 142 makes the classification mutually exclusive, with
the relevant test taking priority). -/
theorem c6_relevant_test_priority {α : Type} [DecidableEq α] (cfg : Config)
    (analyze : String → List String) (st : ModelState α)
    (corpus : List String) (y : List α) (st' : ModelState α) (c : α)
    (ks : KeywordSet) (f : String)
    (hf : fit cfg analyze st corpus y = .ok st')
    (hg : get_keywords st' c = .ok ks)
    (hrel : RelTest cfg (thisGroupOf (corpus.map lowerStr) y c).length
      (normOf (corpus.map lowerStr) y c)
      (docCount analyze (thisGroupOf (corpus.map lowerStr) y c) f)
      (docCount analyze (otherGroupsOf (corpus.map lowerStr) y c) f)) :
    f ∉ ks.clash := by
  have hks := fitOneClass_ok (fit_get_keywords_ok hf hg)
  intro hin
  rw [hks] at hin
  unfold clashKeywordsOf at hin
  have hsub := selectTop_subset hin
  rw [clashPairsPure_fst] at hsub
  have hp := (List.mem_filter.mp hsub).2
  exact (of_decide_eq_true hp).1 hrel

/-- Witness for C6 at a concrete successful fit: the token "shirt" passes
the relevant test for category "clothes" and is indeed absent from the
stored clash list. -/
theorem c6_witness :
    fit defaultCfg analyzeSimple (emptyModel String)
        ["Red Shirt number 1", "Red shoes"] ["clothes", "footwear"]
      = .ok (ModelState.mk ["clothes", "footwear"]
          [KeywordSet.mk ["number", "shirt"] ["shoes"],
           KeywordSet.mk ["shoes"] ["number", "shirt"]]) ∧
    "shirt" ∉ (KeywordSet.mk ["number", "shirt"] ["shoes"]).clash :=
  ⟨by decide,
   c6_relevant_test_priority defaultCfg analyzeSimple (emptyModel String)
     ["Red Shirt number 1", "Red shoes"] ["clothes", "footwear"]
     (ModelState.mk ["clothes", "footwear"]
       [KeywordSet.mk ["number", "shirt"] ["shoes"],
        KeywordSet.mk ["shoes"] ["number", "shirt"]])
     "clothes" (KeywordSet.mk ["number", "shirt"] ["shoes"]) "shirt"
     (by decide) (by decide) (by decide)⟩

/-- C7: after every successful `fit`, each category's stored relevant list
holds unique tokens, has length at most `n_relevant` and is sorted by
non-increasing in-group document count, and the stored clash list holds
unique tokens, has length at most `n_clash` and is sorted by non-increasing
inverse-ratio score. -/
theorem c7_sorted_unique_truncated {α : Type} [DecidableEq α] (cfg : Config)
    (analyze : String → List String) (st : ModelState α)
    (corpus : List String) (y : List α) (st' : ModelState α) (c : α)
    (ks : KeywordSet)
    (hf : fit cfg analyze st corpus y = .ok st')
    (hg : get_keywords st' c = .ok ks) :
    ks.relevant.Nodup ∧ ks.relevant.length ≤ cfg.n_relevant ∧
    (ks.relevant.map fun t =>
      ((docCount analyze (thisGroupOf (corpus.map lowerStr) y c) t : ℚ))).Sorted (· ≥ ·) ∧
    ks.clash.Nodup ∧ ks.clash.length ≤ cfg.n_clash ∧
    (ks.clash.map fun t =>
      clashScoreOf (normOf (corpus.map lowerStr) y c)
        (docCount analyze (thisGroupOf (corpus.map lowerStr) y c) t)
        (docCount analyze (otherGroupsOf (corpus.map lowerStr) y c) t)).Sorted (· ≥ ·) := by
  have hks := fitOneClass_ok (fit_get_keywords_ok hf hg)
  rw [hks]
  unfold relevantKeywordsOf clashKeywordsOf
  refine ⟨?_, selectTop_length _ _, ?_, ?_, selectTop_length _ _, ?_⟩
  · exact selectTop_nodup (by
      rw [relPairsPure_fst]
      exact List.Nodup.filter _ (List.nodup_dedup _))
  · exact selectTop_sorted _ relPairsPure_snd
  · exact selectTop_nodup (by
      rw [clashPairsPure_fst]
      exact List.Nodup.filter _ (List.nodup_dedup _))
  · exact selectTop_sorted _ clashPairsPure_snd

/-- Witness for C7 at a concrete successful fit. -/
theorem c7_witness :
    fit defaultCfg analyzeSimple (emptyModel String)
        ["Red Shirt number 1", "Red shoes"] ["clothes", "footwear"]
      = .ok (ModelState.mk ["clothes", "footwear"]
          [KeywordSet.mk ["number", "shirt"] ["shoes"],
           KeywordSet.mk ["shoes"] ["number", "shirt"]]) ∧
    ((KeywordSet.mk ["number", "shirt"] ["shoes"]).relevant.Nodup ∧
     (KeywordSet.mk ["number", "shirt"] ["shoes"]).relevant.length ≤ defaultCfg.n_relevant ∧
     ((KeywordSet.mk ["number", "shirt"] ["shoes"]).relevant.map fun t =>
       ((docCount analyzeSimple
         (thisGroupOf (["Red Shirt number 1", "Red shoes"].map lowerStr)
           ["clothes", "footwear"] "clothes") t : ℚ))).Sorted (· ≥ ·) ∧
     (KeywordSet.mk ["number", "shirt"] ["shoes"]).clash.Nodup ∧
     (KeywordSet.mk ["number", "shirt"] ["shoes"]).clash.length ≤ defaultCfg.n_clash ∧
     ((KeywordSet.mk ["number", "shirt"] ["shoes"]).clash.map fun t =>
       clashScoreOf
         (normOf (["Red Shirt number 1", "Red shoes"].map lowerStr)
           ["clothes", "footwear"] "clothes")
         (docCount analyzeSimple
           (thisGroupOf (["Red Shirt number 1", "Red shoes"].map lowerStr)
             ["clothes", "footwear"] "clothes") t)
         (docCount analyzeSimple
           (otherGroupsOf (["Red Shirt number 1", "Red shoes"].map lowerStr)
             ["clothes", "footwear"] "clothes") t)).Sorted (· ≥ ·)) :=
  ⟨by decide,
   c7_sorted_unique_truncated defaultCfg analyzeSimple (emptyModel String)
     ["Red Shirt number 1", "Red shoes"] ["clothes", "footwear"]
     (ModelState.mk ["clothes", "footwear"]
       [KeywordSet.mk ["number", "shirt"] ["shoes"],
        KeywordSet.mk ["shoes"] ["number", "shirt"]])
     "clothes" (KeywordSet.mk ["number", "shirt"] ["shoes"])
     (by decide) (by decide)⟩

/-- C8 counterexample: a `judge` call containing a label not among the known
categories does not always fail with `UnrecognizedLabel` — on an untrained
model the untrained check fires first. -/
theorem c8_counterexample :
    judge analyzeSimple (emptyModel String) ["x"] ["nope"] = .error .untrained ∧
    Err.untrained ≠ Err.unrecognizedLabel :=
  ⟨by decide, by decide⟩

/-- C8 (amended): on a model with at least one known category, a `judge` call
containing some unknown label fails with `UnrecognizedLabel`; a
`get_keywords` call with an unknown category always fails with the
unrecognized-label error (on an untrained model, `judge` fails with
`UntrainedModel` instead). -/
theorem c8_amended_unknown_label_guard :
    (∀ {α : Type} [DecidableEq α] (analyze : String → List String)
        (st : ModelState α) (corpus : List String) (y : List α),
      st.classes ≠ [] → (∃ l ∈ y, l ∉ st.classes) →
      judge analyze st corpus y = .error .unrecognizedLabel) ∧
    (∀ {α : Type} [DecidableEq α] (st : ModelState α) (g : α),
      g ∉ st.classes → get_keywords st g = .error .unrecognizedLabel) :=
  ⟨fun analyze st corpus y h1 h2 => judge_unrecognized analyze st corpus y h1 h2,
   fun st g h => get_keywords_unrecognized st g h⟩

/-- Witness for C8 (amended) at a concrete input. -/
theorem c8_witness :
    judge analyzeSimple (ofInitialKeywords [("c1", KeywordSet.mk ["rr"] ["cc"])])
        ["x"] ["zzz"] = .error .unrecognizedLabel ∧
    get_keywords (ofInitialKeywords [("c1", KeywordSet.mk ["rr"] ["cc"])]) "zzz"
      = .error .unrecognizedLabel :=
  ⟨c8_amended_unknown_label_guard.1 analyzeSimple
     (ofInitialKeywords [("c1", KeywordSet.mk ["rr"] ["cc"])]) ["x"] ["zzz"]
     (by decide) ⟨"zzz", by decide, by decide⟩,
   c8_amended_unknown_label_guard.2
     (ofInitialKeywords [("c1", KeywordSet.mk ["rr"] ["cc"])]) "zzz" (by decide)⟩

/-- C9 counterexample: on a model with no category data, `get_keywords` does
not fail with `UntrainedModel`: it fails with the unrecognized-label error
(there is no untrained check in `get_keywords`). -/
theorem c9_counterexample :
    get_keywords (emptyModel String) "a" = .error .unrecognizedLabel ∧
    Err.unrecognizedLabel ≠ Err.untrained :=
  ⟨by decide, by decide⟩

/-- C9 (amended): whenever no category data is available, every `judge` call
fails with `UntrainedModel`, and every `get_keywords` call also fails, but
with the unrecognized-label error. -/
theorem c9_amended_untrained_guard {α : Type} [DecidableEq α]
    (st : ModelState α) (h : st.classes = []) :
    (∀ (analyze : String → List String) (corpus : List String) (y : List α),
      judge analyze st corpus y = .error .untrained) ∧
    (∀ g : α, get_keywords st g = .error .unrecognizedLabel) :=
  ⟨fun analyze corpus y => judge_untrained analyze st corpus y h,
   fun g => get_keywords_unrecognized st g (by rw [h]; exact List.not_mem_nil g)⟩

/-- Witness for C9 (amended) at a concrete input. -/
theorem c9_witness :
    judge analyzeSimple (emptyModel String) ["t"] ["l1"] = .error .untrained ∧
    get_keywords (emptyModel String) "l1" = .error .unrecognizedLabel :=
  ⟨(c9_amended_untrained_guard (emptyModel String) rfl).1 analyzeSimple ["t"] ["l1"],
   (c9_amended_untrained_guard (emptyModel String) rfl).2 "l1"⟩

/-- C10: `fit` on an empty corpus with empty labels succeeds, leaves the
model with zero known categories (erasing any previously trained state), and
every subsequent `judge` call on the resulting state fails with the
untrained-model error. -/
theorem c10_empty_fit_resets {α : Type} [DecidableEq α] (cfg : Config)
    (analyze : String → List String) (st : ModelState α) :
    fit cfg analyze st [] [] = .ok (ModelState.mk [] []) ∧
    ∀ (analyze2 : String → List String) (corpus : List String) (y : List α),
      judge analyze2 (ModelState.mk ([] : List α) []) corpus y = .error .untrained :=
  ⟨rfl, fun analyze2 corpus y =>
    judge_untrained analyze2 (ModelState.mk [] []) corpus y rfl⟩

end Irrelevant
